import Mathlib

/-!
# tfs: a page-backed in-memory filesystem (`filesystem.c`)

Shallow embedding of the file operations (`tfs_open`, `tfs_read_file`,
`tfs_write_file`) and of the tree construction (`tfs_make_inode`,
`tfs_create_file`, `tfs_create_dir`, `tfs_create_files`, `tfs_fill_super`).

Machine model: LP64.  `size_t` and `unsigned long` are naturals below `2^64`,
`loff_t` and `ssize_t` are integers in `[-2^63, 2^63)`, `int` is an integer in
`[-2^31, 2^31)`, a pointer is an address below `2^64` (`0` is `NULL`).  Every
C conversion and every wrap-around is written out with an explicit modulus.

`PAGE_CACHE_SIZE` and `PAGE_CACHE_SHIFT` come from the kernel headers, not from
this file; the functions that use them take them as parameters.
-/

namespace Tfs

/-! ## Machine integers -/

/-- Number of values of a 64-bit word. -/
def U64 : Nat := 18446744073709551616

/-- Conversion of a signed integer to `unsigned long` (reduction modulo `2^64`). -/
def toU64 (x : Int) : Nat := (x % 18446744073709551616).toNat

/-- Conversion of an unsigned value to `int` (keep the low 32 bits, two's complement). -/
def toInt32 (n : Nat) : Int :=
  if n % 4294967296 < 2147483648 then ((n % 4294967296 : Nat) : Int)
  else ((n % 4294967296 : Nat) : Int) - 4294967296

/-- Conversion of an integer to a signed 64-bit type (`loff_t`, `ssize_t`). -/
def toS64 (x : Int) : Int :=
  if toU64 x < 9223372036854775808 then (toU64 x : Int)
  else (toU64 x : Int) - 18446744073709551616

/-- Errno value `EINVAL`. -/
def EINVAL : Int := 22
/-- Errno value `EFAULT`. -/
def EFAULT : Int := 14
/-- Errno value `ENOMEM`. -/
def ENOMEM : Int := 12

/-! ## Kernel memory and the user-copy primitives -/

/-- One byte. -/
abbrev Byte := Fin 256

/-- Kernel memory: the byte stored at each address. -/
abbrev Mem := Nat → Byte

/-- Address arithmetic `p + k` on a 64-bit pointer. -/
def ptrAdd (p k : Nat) : Nat := (p + k) % U64

/-- The `n` bytes of memory starting at address `a`. -/
def load (mem : Mem) (a n : Nat) : List Byte :=
  (List.range n).map fun i => mem (ptrAdd a i)

/-- Store the bytes `bs` at consecutive addresses starting at `a`. -/
def store (mem : Mem) (a : Nat) : List Byte → Mem
  | [] => mem
  | b :: bs => store (Function.update mem (a % U64) b) (a + 1) bs

/-- Host primitive `copy_to_user(to, from, n)`.  The user destination is
described by `room`, the number of bytes it can accept before the access
faults.  Returns the number of bytes that could not be copied and the bytes
that were delivered. -/
def copy_to_user (room : Nat) (mem : Mem) (src n : Nat) : Nat × List Byte :=
  (n - min n room, load mem src (min n room))

/-- Host primitive `copy_from_user(to, from, n)`.  The user source is the list
`user` of readable bytes at `from`; reading past it faults.  Returns the number
of bytes that could not be copied and the memory after the copy. -/
def copy_from_user (user : List Byte) (mem : Mem) (dst n : Nat) : Nat × Mem :=
  (n - min n user.length, store mem dst (user.take n))

/-! ## File handles and the file operations -/

/-- The part of `struct file` the module uses. -/
structure File where
  private_data : Nat
deriving DecidableEq

/-- Outcome of `tfs_read_file`: return value, `*offset` after the call, and the
bytes delivered to the user buffer. -/
structure ReadOut where
  ret : Int
  offset : Int
  user : List Byte
deriving DecidableEq

/-- Outcome of `tfs_write_file`: return value, `*offset` after the call, and
kernel memory after the call. -/
structure WriteOut where
  ret : Int
  offset : Int
  mem : Mem

/-- `tfs_read_file(filp, buf, count, offset)`.  `PAGE_CACHE_SIZE` is an
`unsigned long`, so `*offset` (a `loff_t`) is converted to unsigned in the
comparison and in the subtraction; `len` is an `int`. -/
def tfs_read_file (PAGE_CACHE_SIZE : Nat) (mem : Mem) (filp : File) (room : Nat)
    (count : Nat) (offset : Int) : ReadOut :=
  -- if (*offset >= PAGE_CACHE_SIZE) return -EINVAL;
  if toU64 offset ≥ PAGE_CACHE_SIZE then
    { ret := -EINVAL, offset := offset, user := [] }
  else
    -- len = PAGE_CACHE_SIZE - *offset > count ? count : PAGE_CACHE_SIZE - *offset;
    let avail := (PAGE_CACHE_SIZE + U64 - toU64 offset) % U64
    let len : Int := toInt32 (if avail > count then count else avail)
    -- if (copy_to_user(buf, filp->private_data + *offset, len)) return -EFAULT;
    -- *offset += len; return len;
    let r := copy_to_user room mem (ptrAdd filp.private_data (toU64 offset)) (toU64 len)
    if r.1 ≠ 0 then
      { ret := -EFAULT, offset := offset, user := r.2 }
    else
      { ret := len, offset := toS64 (offset + len), user := r.2 }

/-- `tfs_write_file(filp, buf, count, offset)`.  `count` is a `size_t`, so the
sum `count + *offset` is computed in unsigned 64-bit arithmetic.  The function
never assigns `*offset`. -/
def tfs_write_file (PAGE_CACHE_SIZE : Nat) (mem : Mem) (filp : File) (user : List Byte)
    (count : Nat) (offset : Int) : WriteOut :=
  -- if (count + *offset >= PAGE_CACHE_SIZE) return -EINVAL;
  if (count + toU64 offset) % U64 ≥ PAGE_CACHE_SIZE then
    { ret := -EINVAL, offset := offset, mem := mem }
  else
    -- if (copy_from_user(filp->private_data + *offset, buf, count)) return -EFAULT;
    -- return count;
    let r := copy_from_user user mem (ptrAdd filp.private_data (toU64 offset)) count
    if r.1 ≠ 0 then
      { ret := -EFAULT, offset := offset, mem := r.2 }
    else
      { ret := toS64 count, offset := offset, mem := r.2 }

/-! ## Host objects: inodes, directory entries, superblock -/

/-- Operation tables a `struct inode` can point to through `i_fop`. -/
inductive FileOperations where
  | tfs_file_ops
  | simple_dir_operations
deriving DecidableEq

/-- Operation tables a `struct inode` can point to through `i_op`. -/
inductive InodeOperations where
  | simple_dir_inode_operations
deriving DecidableEq

/-- Operation tables a `struct super_block` can point to through `s_op`. -/
inductive SuperOperations where
  | tfs_s_ops
deriving DecidableEq

/-- The fields of `struct inode` the module touches.  `i_private` is an
address, `0` for `NULL`. -/
structure Inode where
  i_uid : Nat
  i_gid : Nat
  i_blocks : Nat
  i_mode : Nat
  i_atime : Nat
  i_mtime : Nat
  i_ctime : Nat
  i_private : Nat
  i_fop : Option FileOperations
  i_op : Option InodeOperations
deriving DecidableEq

/-- `tfs_open(inode, filp)`: `return filp->private_data = inode->i_private;`.
The value of the assignment, a pointer, is what the `int` function returns. -/
def tfs_open (inode : Inode) (filp : File) : Int × File :=
  (toInt32 inode.i_private, { filp with private_data := inode.i_private })

/-- The `struct qstr` built for a name. -/
structure Qstr where
  name : String
  len : Nat
  hash : Nat
deriving DecidableEq

/-- The fields of `struct dentry` the module relies on.  Pointers to dentries
and inodes are slot numbers in the host tables; `none` is `NULL`. -/
structure Dentry where
  d_parent : Option Nat
  d_name : Qstr
  d_inode : Option Nat
deriving DecidableEq

/-- The fields of `struct super_block` set by `tfs_fill_super`. -/
structure SuperBlock where
  s_op : Option SuperOperations
  s_magic : Nat
  s_blocksize : Nat
  s_blocksize_bits : Nat
  s_root : Option Nat
deriving DecidableEq

/-- State of the host kernel as far as the module can observe it: the inode
and dentry tables (a freed slot is `none`), the clock, the name hash, and the
outcome of each allocation request (`fails k` tells whether request number `k`
is refused; `requests` counts the requests made so far). -/
structure Host where
  inodes : List (Option Inode)
  dentries : List (Option Dentry)
  jiffies : Nat
  full_name_hash : String → Nat → Nat
  fails : Nat → Bool
  requests : Nat

/-- A host with empty tables. -/
def Host.boot (jiffies : Nat) (full_name_hash : String → Nat → Nat) (fails : Nat → Bool) : Host :=
  { inodes := [], dentries := [], jiffies := jiffies, full_name_hash := full_name_hash,
    fails := fails, requests := 0 }

/-- A blank inode as handed out by the host. -/
def Inode.blank : Inode :=
  { i_uid := 0, i_gid := 0, i_blocks := 0, i_mode := 0, i_atime := 0, i_mtime := 0,
    i_ctime := 0, i_private := 0, i_fop := none, i_op := none }

/-- Host primitive `new_inode(sb)`: a fresh inode, or `NULL` when the
allocation is refused. -/
def new_inode (h : Host) : Option Nat × Host :=
  if h.fails h.requests then
    (none, { h with requests := h.requests + 1 })
  else
    (some h.inodes.length,
      { h with inodes := h.inodes ++ [some Inode.blank], requests := h.requests + 1 })

/-- Host primitive `d_alloc(parent, name)`: a fresh negative dentry under
`parent`, or `NULL` when the allocation is refused. -/
def d_alloc (h : Host) (parent : Nat) (qname : Qstr) : Option Nat × Host :=
  if h.fails h.requests then
    (none, { h with requests := h.requests + 1 })
  else
    (some h.dentries.length,
      { h with dentries := h.dentries ++ [some { d_parent := some parent, d_name := qname,
                                                 d_inode := none }],
               requests := h.requests + 1 })

/-- Host primitive `d_alloc_root(root_inode)`: the dentry named "/" bound to
the root inode, or `NULL` when the allocation is refused. -/
def d_alloc_root (h : Host) (root_inode : Nat) : Option Nat × Host :=
  if h.fails h.requests then
    (none, { h with requests := h.requests + 1 })
  else
    (some h.dentries.length,
      { h with dentries := h.dentries ++ [some { d_parent := none,
                                                 d_name := { name := "/", len := 1,
                                                             hash := h.full_name_hash "/" 1 },
                                                 d_inode := some root_inode }],
               requests := h.requests + 1 })

/-- Host primitive `d_add(dentry, inode)`: bind the inode to the dentry. -/
def d_add (h : Host) (dentry inode : Nat) : Host :=
  { h with dentries := h.dentries.modify (Option.map fun d => { d with d_inode := some inode })
                         dentry }

/-- Host primitive `dput(dentry)` on a dentry whose only reference is the
caller: the dentry is released. -/
def dput (h : Host) (dentry : Nat) : Host :=
  { h with dentries := h.dentries.set dentry none }

/-- Host primitive `iput(inode)` on an inode whose only reference is the
caller: the inode is released. -/
def iput (h : Host) (inode : Nat) : Host :=
  { h with inodes := h.inodes.set inode none }

/-- Assignment to fields of the inode in slot `inode`. -/
def Host.updInode (h : Host) (inode : Nat) (f : Inode → Inode) : Host :=
  { h with inodes := h.inodes.modify (Option.map f) inode }

/-- C library `strlen` on a name. -/
def strlen (name : String) : Nat := name.utf8ByteSize

/-- File type bit `S_IFREG`. -/
def S_IFREG : Nat := 0o100000
/-- File type bit `S_IFDIR`. -/
def S_IFDIR : Nat := 0o040000
/-- Magic number of the filesystem. -/
def TFS_MAGIC : Nat := 0x19891115

/-! ## Tree construction -/

/-- `tfs_make_inode(sb, mode)`. -/
def tfs_make_inode (h : Host) (mode : Nat) : Option Nat × Host :=
  match new_inode h with
  | (none, h1) => (none, h1)
  | (some inode, h1) =>
    (some inode,
      h1.updInode inode fun i =>
        { i with i_uid := 0, i_gid := 0, i_blocks := 0, i_mode := mode,
                 i_atime := h1.jiffies, i_mtime := h1.jiffies, i_ctime := h1.jiffies })

/-- `tfs_create_file(sb, dir, name, buffer)`. -/
def tfs_create_file (h : Host) (dir : Nat) (name : String) (buffer : Nat) : Option Nat × Host :=
  let qname : Qstr := { name := name, len := strlen name,
                        hash := h.full_name_hash name (strlen name) }
  match d_alloc h dir qname with
  | (none, h1) => (none, h1)
  | (some dentry, h1) =>
    match tfs_make_inode h1 (S_IFREG ||| 0o644) with
    | (none, h2) => (none, dput h2 dentry)
    | (some inode, h2) =>
      let h3 := h2.updInode inode fun i =>
        { i with i_private := buffer, i_fop := some FileOperations.tfs_file_ops }
      (some dentry, d_add h3 dentry inode)

/-- `tfs_create_dir(sb, parent, name)`. -/
def tfs_create_dir (h : Host) (parent : Nat) (name : String) : Option Nat × Host :=
  let qname : Qstr := { name := name, len := strlen name,
                        hash := h.full_name_hash name (strlen name) }
  match d_alloc h parent qname with
  | (none, h1) => (none, h1)
  | (some dentry, h1) =>
    match tfs_make_inode h1 (S_IFDIR ||| 0o644) with
    | (none, h2) => (none, dput h2 dentry)
    | (some inode, h2) =>
      let h3 := h2.updInode inode fun i =>
        { i with i_op := some InodeOperations.simple_dir_inode_operations,
                 i_fop := some FileOperations.simple_dir_operations }
      (some dentry, d_add h3 dentry inode)

/-- Local variables of `tfs_create_files`: the declared `dir`, and the name
`subdir` that the result of `tfs_create_dir` is assigned to. -/
structure CreateFilesLocals where
  dir : Option Nat
  subdir : Option Nat
deriving DecidableEq

/-- `tfs_create_files(sb, root)`.  As in the source, `dir` is initialised to
`NULL`, the result of `tfs_create_dir` is stored in `subdir`, and the test
before the nested file reads `dir`. -/
def tfs_create_files (test_buff test1_buff : Nat) (h : Host) (root : Nat) : Host :=
  let locals : CreateFilesLocals := { dir := none, subdir := none }
  let h1 := (tfs_create_file h root "test" test_buff).2
  let r := tfs_create_dir h1 root "testdir"
  let locals := { locals with subdir := r.1 }
  match locals.dir with
  | some dir => (tfs_create_file r.2 dir "test" test1_buff).2
  | none => r.2

/-- `tfs_fill_super(sb, data, silent)`: return value, host state and
superblock after the call. -/
def tfs_fill_super (PAGE_CACHE_SIZE PAGE_CACHE_SHIFT test_buff test1_buff : Nat)
    (h : Host) (sb : SuperBlock) : Int × Host × SuperBlock :=
  let sb := { sb with s_op := some SuperOperations.tfs_s_ops, s_magic := TFS_MAGIC,
                      s_blocksize := PAGE_CACHE_SIZE, s_blocksize_bits := PAGE_CACHE_SHIFT }
  match tfs_make_inode h (S_IFDIR ||| 0o755) with
  | (none, h1) => (-ENOMEM, h1, sb)
  | (some root, h1) =>
    let h2 := h1.updInode root fun i =>
      { i with i_fop := some FileOperations.simple_dir_operations,
               i_op := some InodeOperations.simple_dir_inode_operations }
    match d_alloc_root h2 root with
    | (none, h3) => (-ENOMEM, iput h3 root, sb)
    | (some root_dentry, h3) =>
      let sb := { sb with s_root := some root_dentry }
      (0, tfs_create_files test_buff test1_buff h3 root_dentry, sb)

/-! ## Observing the tree -/

/-- The dentry in slot `d`, if the slot is live. -/
def Host.dentry (h : Host) (d : Nat) : Option Dentry := (h.dentries.get? d).join

/-- The inode in slot `i`, if the slot is live. -/
def Host.inode (h : Host) (i : Nat) : Option Inode := (h.inodes.get? i).join

/-- Host name lookup: the positive dentry called `name` under `parent`. -/
def Host.lookup (h : Host) (parent : Nat) (name : String) : Option Nat :=
  (List.range h.dentries.length).find? fun d =>
    match h.dentry d with
    | some e => e.d_parent == some parent && e.d_name.name == name && e.d_inode.isSome
    | none => false

/-- The inode reached by looking `name` up under `parent`. -/
def Host.lookupInode (h : Host) (parent : Nat) (name : String) : Option Inode :=
  match h.lookup parent name with
  | none => none
  | some d =>
    match h.dentry d with
    | none => none
    | some e =>
      match e.d_inode with
      | none => none
      | some i => h.inode i

/-- The live dentries whose inode is a regular file served by `tfs_file_ops`,
as `(parent, name, buffer address)`. -/
def Host.regularFiles (h : Host) : List (Option Nat × String × Nat) :=
  h.dentries.filterMap fun slot =>
    match slot with
    | none => none
    | some e =>
      match e.d_inode with
      | none => none
      | some i =>
        match h.inode i with
        | none => none
        | some ino =>
          if ino.i_fop = some FileOperations.tfs_file_ops then
            some (e.d_parent, e.d_name.name, ino.i_private)
          else none

/-- The superblock handed to `tfs_fill_super` by the host. -/
def SuperBlock.blank : SuperBlock :=
  { s_op := none, s_magic := 0, s_blocksize := 0, s_blocksize_bits := 0, s_root := none }

/-- The ten bytes of the text "0123456789". -/
def digits : List Byte := [48, 49, 50, 51, 52, 53, 54, 55, 56, 57]

/-- Scenario: mount on a host with empty tables, look up "test" under the
root, open it, write the user bytes `src` (`count` of them requested) at
offset 0, then read `want` bytes from offset 0 into a user buffer of that
size.  Returns the outcome of the write call and of the read call. -/
def mount_write_read (PAGE_CACHE_SIZE PAGE_CACHE_SHIFT test_buff test1_buff : Nat)
    (h : Host) (mem : Mem) (src : List Byte) (count want : Nat) : Option (Int × ReadOut) :=
  let m := tfs_fill_super PAGE_CACHE_SIZE PAGE_CACHE_SHIFT test_buff test1_buff h SuperBlock.blank
  match m.2.2.s_root with
  | none => none
  | some root =>
    match m.2.1.lookupInode root "test" with
    | none => none
    | some ino =>
      let filp := (tfs_open ino { private_data := 0 }).2
      let w := tfs_write_file PAGE_CACHE_SIZE mem filp src count 0
      some (w.ret, tfs_read_file PAGE_CACHE_SIZE w.mem filp want want 0)

/-! ## Values used to state and instantiate the theorems -/

/-- Sample kernel memory used to instantiate the theorems: address `a` holds
the byte `a mod 256`. -/
def sampleMem : Mem := fun a => Fin.ofNat a

/-- The root directory inode built by `tfs_fill_super`. -/
def rootInode (j : Nat) : Inode :=
  { i_uid := 0, i_gid := 0, i_blocks := 0, i_mode := S_IFDIR ||| 0o755, i_atime := j,
    i_mtime := j, i_ctime := j, i_private := 0,
    i_fop := some FileOperations.simple_dir_operations,
    i_op := some InodeOperations.simple_dir_inode_operations }

/-- The regular-file inode built by `tfs_create_file` for `buffer`. -/
def fileInode (j buffer : Nat) : Inode :=
  { i_uid := 0, i_gid := 0, i_blocks := 0, i_mode := S_IFREG ||| 0o644, i_atime := j,
    i_mtime := j, i_ctime := j, i_private := buffer,
    i_fop := some FileOperations.tfs_file_ops, i_op := none }

/-- The directory inode built by `tfs_create_dir`. -/
def dirInode (j : Nat) : Inode :=
  { i_uid := 0, i_gid := 0, i_blocks := 0, i_mode := S_IFDIR ||| 0o644, i_atime := j,
    i_mtime := j, i_ctime := j, i_private := 0,
    i_fop := some FileOperations.simple_dir_operations,
    i_op := some InodeOperations.simple_dir_inode_operations }

/-- The dentry named `name` under `parent`, bound to `inode`. -/
def entry (hash : String → Nat → Nat) (parent : Option Nat) (name : String) (len : Nat)
    (inode : Nat) : Dentry :=
  { d_parent := parent, d_name := { name := name, len := len, hash := hash name len },
    d_inode := some inode }

/-- The superblock after a successful `tfs_fill_super`. -/
def mountedSuper (cap shift : Nat) : SuperBlock :=
  { s_op := some SuperOperations.tfs_s_ops, s_magic := TFS_MAGIC, s_blocksize := cap,
    s_blocksize_bits := shift, s_root := some 0 }

/-! ## Machine-integer and memory lemmas -/

theorem toU64_natCast (n : Nat) (h : n < 18446744073709551616) : toU64 (n : Int) = n := by
  unfold toU64; omega

theorem toInt32_small (n : Nat) (h : n < 2147483648) : toInt32 n = n := by
  unfold toInt32
  have h1 : n % 4294967296 = n := by omega
  rw [h1, if_pos h]

theorem toS64_small (n : Nat) (h : n < 9223372036854775808) : toS64 (n : Int) = n := by
  unfold toS64
  rw [toU64_natCast n (by omega), if_pos h]

theorem ptrAdd_small (p k : Nat) (h : p + k < U64) : ptrAdd p k = p + k := by
  unfold ptrAdd; exact Nat.mod_eq_of_lt h

theorem load_eq (mem : Mem) (a n : Nat) (h : a + n ≤ U64) :
    load mem a n = (List.range n).map fun i => mem (a + i) := by
  unfold load
  apply List.map_congr_left
  intro i hi
  rw [List.mem_range] at hi
  rw [ptrAdd_small a i (by omega)]

/-- A store leaves every address outside the stored range alone. -/
theorem store_outside (bs : List Byte) (mem : Mem) (a x : Nat) (h : a + bs.length ≤ U64)
    (hx : x < a ∨ a + bs.length ≤ x) : store mem a bs x = mem x := by
  induction bs generalizing mem a with
  | nil => rfl
  | cons b bs ih =>
    simp only [List.length_cons] at h hx
    unfold store
    rw [ih _ (a + 1) (by omega) (by omega)]
    have ha : a % U64 = a := Nat.mod_eq_of_lt (by omega)
    rw [ha]
    exact Function.update_noteq (by omega) _ _

/-- A store puts byte number `i` of the list at address `a + i`. -/
theorem store_inside (bs : List Byte) (mem : Mem) (a i : Nat) (h : a + bs.length ≤ U64)
    (hi : i < bs.length) : store mem a bs (a + i) = bs.get ⟨i, hi⟩ := by
  induction bs generalizing mem a i with
  | nil => simp at hi
  | cons b bs ih =>
    simp only [List.length_cons] at h hi
    unfold store
    cases i with
    | zero =>
      show store (Function.update mem (a % U64) b) (a + 1) bs a = b
      rw [store_outside bs _ (a + 1) a (by omega) (by omega)]
      have ha : a % U64 = a := Nat.mod_eq_of_lt (by omega)
      rw [ha]
      simp
    | succ i =>
      have := ih (Function.update mem (a % U64) b) (a + 1) i (by omega) (by omega)
      rw [show a + (i + 1) = a + 1 + i by omega, this]
      rfl

/-- Reading back a stored list returns the list. -/
theorem load_store (bs : List Byte) (mem : Mem) (a : Nat) (h : a + bs.length ≤ U64) :
    (List.range bs.length).map (fun i => store mem a bs (a + i)) = bs := by
  apply List.ext_get
  · simp
  · intro i h1 h2
    simp only [List.get_eq_getElem, List.getElem_map, List.getElem_range]
    rw [store_inside bs mem a i h h2]
    simp

/-! ## Closed forms of the file operations on in-range arguments -/

/-- Closed form of a read whose offset lies inside the page. -/
theorem tfs_read_file_inside (cap : Nat) (mem : Mem) (filp : File) (room count o : Nat)
    (hcap : cap < 2147483648) (hlt : o < cap) :
    tfs_read_file cap mem filp room count (o : Int) =
      if min count (cap - o) ≤ room then
        { ret := (min count (cap - o) : Nat), offset := (o : Int) + (min count (cap - o) : Nat),
          user := load mem (ptrAdd filp.private_data o) (min count (cap - o)) }
      else
        { ret := -EFAULT, offset := (o : Int),
          user := load mem (ptrAdd filp.private_data o) room } := by
  have hu : toU64 (o : Int) = o := toU64_natCast o (by omega)
  have hav : (cap + U64 - o) % U64 = cap - o := by unfold U64; omega
  have hmin : (if cap - o > count then count else cap - o) = min count (cap - o) := by
    split <;> omega
  have hL : min count (cap - o) < 2147483648 := by omega
  unfold tfs_read_file copy_to_user
  rw [hu, if_neg (by omega)]
  simp only [hav, hmin, toInt32_small _ hL,
    toU64_natCast _ (show min count (cap - o) < 18446744073709551616 by omega)]
  by_cases hr : min count (cap - o) ≤ room
  · have h1 : min (min count (cap - o)) room = min count (cap - o) := by omega
    have h2 : toS64 ((o : Int) + (min count (cap - o) : Nat))
        = (o : Int) + (min count (cap - o) : Nat) := by
      have := toS64_small (o + min count (cap - o)) (by omega)
      rw [Nat.cast_add] at this
      exact this
    rw [if_pos hr, h1, h2]
    simp
  · have h1 : min (min count (cap - o)) room = room := by omega
    rw [if_neg hr, h1, if_pos (by omega)]

/-- Closed form of a write of `src` that ends before the last byte of the page. -/
theorem tfs_write_file_inside (cap : Nat) (mem : Mem) (filp : File) (src : List Byte) (o : Nat)
    (hcap : cap ≤ 9223372036854775808) (hlt : o + src.length < cap) :
    tfs_write_file cap mem filp src src.length (o : Int) =
      { ret := (src.length : Nat), offset := (o : Int),
        mem := store mem (ptrAdd filp.private_data o) src } := by
  have hu : toU64 (o : Int) = o := toU64_natCast o (by omega)
  have hs : (src.length + o) % U64 = src.length + o := Nat.mod_eq_of_lt (by unfold U64; omega)
  unfold tfs_write_file copy_from_user
  rw [hu, hs, if_neg (by omega)]
  have ht : toS64 ((src.length : Nat) : Int) = (src.length : Nat) := toS64_small _ (by omega)
  simp [ht]

/-! ## Reads -/

/-- C1: for a page-sized buffer lying in the address space, every requested
count and every offset with `0 ≤ offset < capacity`, a read whose copy to the
user does not fault returns `len = min(count, capacity - offset)`, delivers
exactly the buffer bytes at positions `offset .. offset+len-1`, and advances
the offset by `len`. -/
theorem tfs_read_file_in_range (cap : Nat) (mem : Mem) (filp : File) (room count : Nat)
    (offset : Int) (hcap : cap < 2147483648) (hbuf : filp.private_data + cap ≤ U64)
    (h0 : 0 ≤ offset) (hlt : offset < cap)
    (hnofault : (tfs_read_file cap mem filp room count offset).ret ≠ -EFAULT) :
    (tfs_read_file cap mem filp room count offset).ret
        = (min count (cap - offset.toNat) : Nat) ∧
    (tfs_read_file cap mem filp room count offset).user
        = (List.range (min count (cap - offset.toNat))).map
            (fun i => mem (filp.private_data + offset.toNat + i)) ∧
    (tfs_read_file cap mem filp room count offset).offset
        = offset + (min count (cap - offset.toNat) : Nat) := by
  obtain ⟨o, rfl⟩ := Int.eq_ofNat_of_zero_le h0
  have ho : o < cap := by omega
  rw [tfs_read_file_inside cap mem filp room count o hcap ho] at hnofault ⊢
  simp only [Int.toNat_ofNat]
  by_cases hr : min count (cap - o) ≤ room
  · rw [if_pos hr]
    refine ⟨rfl, ?_, rfl⟩
    show load mem (ptrAdd filp.private_data o) (min count (cap - o)) = _
    rw [ptrAdd_small _ _ (by omega), load_eq _ _ _ (by omega)]
  · rw [if_neg hr] at hnofault
    exact absurd rfl hnofault

/-- Instance of C1: six bytes are left at offset 4090 of a 4096-byte page. -/
theorem tfs_read_file_in_range_witness :
    (tfs_read_file 4096 sampleMem { private_data := 1000 } 100 20 4090).ret = (6 : Nat) ∧
    (tfs_read_file 4096 sampleMem { private_data := 1000 } 100 20 4090).user
        = (List.range 6).map (fun i => sampleMem (1000 + 4090 + i)) ∧
    (tfs_read_file 4096 sampleMem { private_data := 1000 } 100 20 4090).offset
        = 4090 + (6 : Nat) :=
  tfs_read_file_in_range 4096 sampleMem { private_data := 1000 } 100 20 4090
    (by decide) (by decide) (by decide) (by decide) (by decide)

/-- C2: for every count and every offset at or past the capacity, a read fails
with `-EINVAL`, which is not the end-of-file value 0, delivers no byte and
leaves the offset as it was. -/
theorem tfs_read_file_past_capacity (cap : Nat) (mem : Mem) (filp : File) (room count : Nat)
    (offset : Int) (hge : (cap : Int) ≤ offset) (hmax : offset < 9223372036854775808) :
    (tfs_read_file cap mem filp room count offset).ret = -EINVAL ∧
    (tfs_read_file cap mem filp room count offset).ret ≠ 0 ∧
    (tfs_read_file cap mem filp room count offset).user = [] ∧
    (tfs_read_file cap mem filp room count offset).offset = offset := by
  have hu : toU64 offset ≥ cap := by unfold toU64; omega
  unfold tfs_read_file
  rw [if_pos hu]
  refine ⟨rfl, ?_, rfl, rfl⟩
  show -EINVAL ≠ 0
  decide

/-- Instance of C2: a read at offset 4096 of a 4096-byte page. -/
theorem tfs_read_file_past_capacity_witness :
    (tfs_read_file 4096 sampleMem { private_data := 1000 } 100 20 4096).ret = -EINVAL ∧
    (tfs_read_file 4096 sampleMem { private_data := 1000 } 100 20 4096).ret ≠ 0 ∧
    (tfs_read_file 4096 sampleMem { private_data := 1000 } 100 20 4096).user = [] ∧
    (tfs_read_file 4096 sampleMem { private_data := 1000 } 100 20 4096).offset = 4096 :=
  tfs_read_file_past_capacity 4096 sampleMem { private_data := 1000 } 100 20 4096
    (by decide) (by decide)

/-- Bounds of a read, for every count and every `loff_t` offset, negative ones
included: either the read is refused with `-EINVAL` and delivers nothing, or
the offset is inside the page and the bytes delivered stay inside the page. -/
theorem tfs_read_file_bounds (cap : Nat) (mem : Mem) (filp : File) (room count : Nat)
    (offset : Int) (hcap : cap < 2147483648)
    (hmin : -9223372036854775808 ≤ offset) (hmax : offset < 9223372036854775808) :
    ((tfs_read_file cap mem filp room count offset).ret = -EINVAL ∧
      (tfs_read_file cap mem filp room count offset).user = [] ∧
      (offset < 0 ∨ (cap : Int) ≤ offset)) ∨
    (0 ≤ offset ∧ offset < cap ∧
      offset + ((tfs_read_file cap mem filp room count offset).user.length : Nat) ≤ cap) := by
  by_cases hu : toU64 offset ≥ cap
  · left
    unfold tfs_read_file
    rw [if_pos hu]
    refine ⟨rfl, rfl, ?_⟩
    unfold toU64 at hu
    omega
  · right
    have h0 : 0 ≤ offset := by unfold toU64 at hu; omega
    obtain ⟨o, rfl⟩ := Int.eq_ofNat_of_zero_le h0
    have ho : o < cap := by unfold toU64 at hu; omega
    refine ⟨h0, by omega, ?_⟩
    rw [tfs_read_file_inside cap mem filp room count o hcap ho]
    by_cases hr : min count (cap - o) ≤ room
    · rw [if_pos hr]
      simp only [load, List.length_map, List.length_range]
      omega
    · rw [if_neg hr]
      simp only [load, List.length_map, List.length_range]
      omega

/-! ## Writes -/

/-- C10: for every `src` of length `count` and every offset with
`0 ≤ offset` and `offset + count < capacity`, a write returns `count`, makes
the buffer bytes at positions `offset .. offset+count-1` equal to `src`,
leaves every other byte of memory as it was, and leaves the offset as it
was. -/
theorem tfs_write_file_frame (cap : Nat) (mem : Mem) (filp : File) (src : List Byte)
    (count : Nat) (offset : Int) (hcap : cap ≤ 9223372036854775808)
    (hbuf : filp.private_data + cap ≤ U64) (hlen : src.length = count)
    (h0 : 0 ≤ offset) (hlt : offset + count < cap) :
    (tfs_write_file cap mem filp src count offset).ret = count ∧
    (List.range count).map
        (fun i => (tfs_write_file cap mem filp src count offset).mem
                    (filp.private_data + offset.toNat + i)) = src ∧
    (∀ a, a < filp.private_data + offset.toNat ∨ filp.private_data + offset.toNat + count ≤ a →
        (tfs_write_file cap mem filp src count offset).mem a = mem a) ∧
    (tfs_write_file cap mem filp src count offset).offset = offset := by
  subst hlen
  obtain ⟨o, rfl⟩ := Int.eq_ofNat_of_zero_le h0
  have ho : o + src.length < cap := by omega
  rw [tfs_write_file_inside cap mem filp src o hcap ho, Int.toNat_ofNat,
    ptrAdd_small _ _ (by omega)]
  refine ⟨rfl, ?_, ?_, rfl⟩
  · exact load_store src mem (filp.private_data + o) (by omega)
  · intro a ha
    exact store_outside src mem (filp.private_data + o) a (by omega) ha

/-- Instance of C10: three bytes written at offset 5 of a 4096-byte page. -/
theorem tfs_write_file_frame_witness :
    (tfs_write_file 4096 sampleMem { private_data := 1000 } [7, 8, 9] 3 5).ret = 3 ∧
    (List.range 3).map
        (fun i => (tfs_write_file 4096 sampleMem { private_data := 1000 } [7, 8, 9] 3 5).mem
                    (1000 + (5 : Int).toNat + i)) = [7, 8, 9] ∧
    (∀ a, a < 1000 + (5 : Int).toNat ∨ 1000 + (5 : Int).toNat + 3 ≤ a →
        (tfs_write_file 4096 sampleMem { private_data := 1000 } [7, 8, 9] 3 5).mem a
          = sampleMem a) ∧
    (tfs_write_file 4096 sampleMem { private_data := 1000 } [7, 8, 9] 3 5).offset = 5 :=
  tfs_write_file_frame 4096 sampleMem { private_data := 1000 } [7, 8, 9] 3 5
    (by decide) (by decide) (by decide) (by decide) (by decide)

/-- C4: for every `src` of length `count` and every offset with `0 ≤ offset`
and `offset + count < capacity`, the write returns `count`, and a read of
`count` bytes at the same offset of the written buffer whose copy does not
fault returns `count` bytes equal to `src`. -/
theorem write_then_read_roundtrip (cap : Nat) (mem : Mem) (filp : File) (src : List Byte)
    (room count : Nat) (offset : Int) (hcap : cap < 2147483648)
    (hbuf : filp.private_data + cap ≤ U64) (hlen : src.length = count)
    (h0 : 0 ≤ offset) (hlt : offset + count < cap)
    (hnofault : (tfs_read_file cap (tfs_write_file cap mem filp src count offset).mem filp room
                  count offset).ret ≠ -EFAULT) :
    (tfs_write_file cap mem filp src count offset).ret = count ∧
    (tfs_read_file cap (tfs_write_file cap mem filp src count offset).mem filp room
        count offset).ret = count ∧
    (tfs_read_file cap (tfs_write_file cap mem filp src count offset).mem filp room
        count offset).user = src := by
  subst hlen
  obtain ⟨o, rfl⟩ := Int.eq_ofNat_of_zero_le h0
  have ho : o + src.length < cap := by omega
  have hm : min src.length (cap - o) = src.length := by omega
  rw [tfs_write_file_inside cap mem filp src o (by omega) ho] at hnofault ⊢
  rw [tfs_read_file_inside cap _ filp room src.length o hcap (by omega), hm] at hnofault ⊢
  by_cases hr : src.length ≤ room
  · rw [if_pos hr]
    refine ⟨rfl, rfl, ?_⟩
    show load (store mem (ptrAdd filp.private_data o) src) (ptrAdd filp.private_data o)
      src.length = src
    rw [ptrAdd_small _ _ (by omega), load_eq _ _ _ (by omega)]
    exact load_store src mem (filp.private_data + o) (by omega)
  · rw [if_neg hr] at hnofault
    exact absurd rfl hnofault

/-- Instance of C4: three bytes written at offset 0 and read back. -/
theorem write_then_read_roundtrip_witness :
    (tfs_write_file 4096 sampleMem { private_data := 1000 } [7, 8, 9] 3 0).ret = 3 ∧
    (tfs_read_file 4096 (tfs_write_file 4096 sampleMem { private_data := 1000 } [7, 8, 9] 3 0).mem
        { private_data := 1000 } 3 3 0).ret = 3 ∧
    (tfs_read_file 4096 (tfs_write_file 4096 sampleMem { private_data := 1000 } [7, 8, 9] 3 0).mem
        { private_data := 1000 } 3 3 0).user = [7, 8, 9] :=
  write_then_read_roundtrip 4096 sampleMem { private_data := 1000 } [7, 8, 9] 3 3 0
    (by decide) (by decide) (by decide) (by decide) (by decide) (by decide)

/-! ## Defects of the write bounds check and of `tfs_open` -/

/-- A write whose `count + offset` does not wrap around and reaches the
capacity is refused with `-EINVAL` and leaves memory as it was. -/
theorem tfs_write_file_rejects (cap : Nat) (mem : Mem) (filp : File) (user : List Byte)
    (count : Nat) (offset : Int) (hsum : offset + count < 18446744073709551616)
    (hge : (cap : Int) ≤ offset + count) :
    (tfs_write_file cap mem filp user count offset).ret = -EINVAL ∧
    (tfs_write_file cap mem filp user count offset).mem = mem ∧
    (tfs_write_file cap mem filp user count offset).offset = offset := by
  have hu : (count + toU64 offset) % U64 ≥ cap := by unfold toU64 U64; omega
  unfold tfs_write_file
  rw [if_pos hu]
  exact ⟨rfl, rfl, rfl⟩

/-- C3, evaluated where it fails: with `count = 2^64 - 1` and `offset = 1` the
sum `count + offset` is `2^64 ≥ capacity`, yet the check, computed modulo
`2^64`, lets the write through: the call does not return `-EINVAL` (it
returns `-EFAULT` once the user source is exhausted) and the buffer byte at
position 1 has been overwritten. -/
theorem tfs_write_file_wraps_count :
    (tfs_write_file 4096 sampleMem { private_data := 1000 } [65] 18446744073709551615 1).ret
      = -EFAULT ∧
    (tfs_write_file 4096 sampleMem { private_data := 1000 } [65] 18446744073709551615 1).ret
      ≠ -EINVAL ∧
    (tfs_write_file 4096 sampleMem { private_data := 1000 } [65] 18446744073709551615 1).mem 1001
      = 65 ∧
    sampleMem 1001 = 233 := by
  decide

/-- C6, evaluated where it fails: a write of one byte at offset `-1` passes
the bounds check (`1 + (2^64 - 1)` is `0` modulo `2^64`), returns 1, and
overwrites the byte just below the buffer, outside `[0, capacity)`. -/
theorem tfs_write_file_negative_offset :
    (tfs_write_file 4096 sampleMem { private_data := 1000 } [65] 1 (-1)).ret = 1 ∧
    (tfs_write_file 4096 sampleMem { private_data := 1000 } [65] 1 (-1)).mem 999 = 65 ∧
    sampleMem 999 = 231 ∧
    (tfs_read_file 4096 sampleMem { private_data := 1000 } 1 1 (-1)).ret = -EINVAL := by
  decide

/-- What `tfs_open` does for every inode: it binds the inode's buffer address
to the handle, and its return value is the low 32 bits of that address read as
an `int`, so it is 0 only for an address that is a multiple of `2^32`. -/
theorem tfs_open_returns_address (inode : Inode) (filp : File) :
    (tfs_open inode filp).2.private_data = inode.i_private ∧
    ((tfs_open inode filp).1 = 0 ↔ inode.i_private % 4294967296 = 0) := by
  refine ⟨rfl, ?_⟩
  show toInt32 inode.i_private = 0 ↔ _
  unfold toInt32
  split <;> omega

/-- C7, evaluated where it fails: for the regular-file inode of a buffer at
address `0xffffffffa0001000` the handle is bound to the buffer, but the value
returned is `-1610608640`, not the success code 0. -/
theorem tfs_open_nonzero :
    (tfs_open (fileInode 0 0xffffffffa0001000) { private_data := 0 }).2.private_data
      = 0xffffffffa0001000 ∧
    (tfs_open (fileInode 0 0xffffffffa0001000) { private_data := 0 }).1 = -1610608640 ∧
    (tfs_open (fileInode 0 0xffffffffa0001000) { private_data := 0 }).1 ≠ 0 := by
  decide

/-! ## Tree construction -/

theorem strlen_test : strlen "test" = 4 := by decide

theorem strlen_testdir : strlen "testdir" = 7 := by decide

/-- The mount when the first six allocation requests are granted. -/
theorem tfs_fill_super_granted (cap shift tb tb1 j : Nat) (hash : String → Nat → Nat)
    (fails : Nat → Bool) (h0 : fails 0 = false) (h1 : fails 1 = false) (h2 : fails 2 = false)
    (h3 : fails 3 = false) (h4 : fails 4 = false) (h5 : fails 5 = false) :
    tfs_fill_super cap shift tb tb1 (Host.boot j hash fails) SuperBlock.blank =
      (0,
       { inodes := [some (rootInode j), some (fileInode j tb), some (dirInode j)],
         dentries := [some (entry hash none "/" 1 0), some (entry hash (some 0) "test" 4 1),
                      some (entry hash (some 0) "testdir" 7 2)],
         jiffies := j, full_name_hash := hash, fails := fails, requests := 6 },
       mountedSuper cap shift) := by
  simp [tfs_fill_super, tfs_create_files, tfs_create_file, tfs_create_dir, tfs_make_inode,
    new_inode, d_alloc, d_alloc_root, d_add, Host.updInode, Host.boot, h0, h1, h2, h3, h4, h5,
    strlen_test, strlen_testdir, List.modify, rootInode, fileInode, dirInode, entry,
    mountedSuper, SuperBlock.blank, Inode.blank]

/-- The mount when the entry slot of "testdir" is refused. -/
theorem tfs_fill_super_no_slot (cap shift tb tb1 j : Nat) (hash : String → Nat → Nat)
    (fails : Nat → Bool) (h0 : fails 0 = false) (h1 : fails 1 = false) (h2 : fails 2 = false)
    (h3 : fails 3 = false) (h4 : fails 4 = true) :
    tfs_fill_super cap shift tb tb1 (Host.boot j hash fails) SuperBlock.blank =
      (0,
       { inodes := [some (rootInode j), some (fileInode j tb)],
         dentries := [some (entry hash none "/" 1 0), some (entry hash (some 0) "test" 4 1)],
         jiffies := j, full_name_hash := hash, fails := fails, requests := 5 },
       mountedSuper cap shift) := by
  simp [tfs_fill_super, tfs_create_files, tfs_create_file, tfs_create_dir, tfs_make_inode,
    new_inode, d_alloc, d_alloc_root, d_add, Host.updInode, Host.boot, h0, h1, h2, h3, h4,
    strlen_test, strlen_testdir, List.modify, rootInode, fileInode, entry,
    mountedSuper, SuperBlock.blank, Inode.blank]

/-- The mount when the entry slot of "testdir" is granted and its inode is
refused: the slot is released again. -/
theorem tfs_fill_super_no_inode (cap shift tb tb1 j : Nat) (hash : String → Nat → Nat)
    (fails : Nat → Bool) (h0 : fails 0 = false) (h1 : fails 1 = false) (h2 : fails 2 = false)
    (h3 : fails 3 = false) (h4 : fails 4 = false) (h5 : fails 5 = true) :
    tfs_fill_super cap shift tb tb1 (Host.boot j hash fails) SuperBlock.blank =
      (0,
       { inodes := [some (rootInode j), some (fileInode j tb)],
         dentries := [some (entry hash none "/" 1 0), some (entry hash (some 0) "test" 4 1),
                      none],
         jiffies := j, full_name_hash := hash, fails := fails, requests := 6 },
       mountedSuper cap shift) := by
  simp [tfs_fill_super, tfs_create_files, tfs_create_file, tfs_create_dir, tfs_make_inode,
    new_inode, d_alloc, d_alloc_root, d_add, dput, Host.updInode, Host.boot, h0, h1, h2, h3,
    h4, h5, strlen_test, strlen_testdir, List.modify, rootInode, fileInode, entry,
    mountedSuper, SuperBlock.blank, Inode.blank]

/-- C8, evaluated where it fails: when every allocation is granted the mount
succeeds and builds the root file "test" bound to buffer A and the directory
"testdir", but nothing under "testdir": the tree holds one regular file, not
two, and buffer B is bound to no file. -/
theorem tfs_create_files_skips_nested_file (cap shift tb tb1 j : Nat)
    (hash : String → Nat → Nat) :
    (tfs_fill_super cap shift tb tb1 (Host.boot j hash fun _ => false) SuperBlock.blank).1 = 0 ∧
    (tfs_fill_super cap shift tb tb1 (Host.boot j hash fun _ => false)
        SuperBlock.blank).2.2.s_root = some 0 ∧
    (tfs_fill_super cap shift tb tb1 (Host.boot j hash fun _ => false)
        SuperBlock.blank).2.1.lookupInode 0 "test" = some (fileInode j tb) ∧
    (tfs_fill_super cap shift tb tb1 (Host.boot j hash fun _ => false)
        SuperBlock.blank).2.1.lookup 0 "testdir" = some 2 ∧
    (tfs_fill_super cap shift tb tb1 (Host.boot j hash fun _ => false)
        SuperBlock.blank).2.1.lookupInode 0 "testdir" = some (dirInode j) ∧
    (tfs_fill_super cap shift tb tb1 (Host.boot j hash fun _ => false)
        SuperBlock.blank).2.1.lookup 2 "test" = none ∧
    (tfs_fill_super cap shift tb tb1 (Host.boot j hash fun _ => false)
        SuperBlock.blank).2.1.regularFiles = [(some 0, "test", tb)] := by
  rw [tfs_fill_super_granted cap shift tb tb1 j hash (fun _ => false) rfl rfl rfl rfl rfl rfl]
  refine ⟨rfl, rfl, ?_, ?_, ?_, ?_, ?_⟩ <;>
    simp [Host.lookupInode, Host.lookup, Host.dentry, Host.inode, Host.regularFiles, entry,
      fileInode, dirInode, rootInode, List.range_succ, List.find?]

/-- C9: if the first four allocations (root inode, root entry, and the entry
slot and inode of the root file) are granted and the entry slot or the inode
of "testdir" is refused, then `tfs_fill_super` returns 0 with the root
installed, "test" is found under the root as a regular file of mode
`S_IFREG|0644` bound to buffer A with `tfs_file_ops` installed, "testdir" is
not found, and the root file is the only regular file of the tree. -/
theorem tfs_fill_super_subdir_refused (cap shift tb tb1 j : Nat) (hash : String → Nat → Nat)
    (fails : Nat → Bool) (h0 : fails 0 = false) (h1 : fails 1 = false) (h2 : fails 2 = false)
    (h3 : fails 3 = false) (hsub : fails 4 = true ∨ fails 5 = true) :
    (tfs_fill_super cap shift tb tb1 (Host.boot j hash fails) SuperBlock.blank).1 = 0 ∧
    (tfs_fill_super cap shift tb tb1 (Host.boot j hash fails) SuperBlock.blank).2.2.s_root
      = some 0 ∧
    (∃ ino,
      (tfs_fill_super cap shift tb tb1 (Host.boot j hash fails)
          SuperBlock.blank).2.1.lookupInode 0 "test" = some ino ∧
      ino.i_mode = S_IFREG ||| 0o644 ∧ ino.i_private = tb ∧
      ino.i_fop = some FileOperations.tfs_file_ops) ∧
    (tfs_fill_super cap shift tb tb1 (Host.boot j hash fails) SuperBlock.blank).2.1.lookup
      0 "testdir" = none ∧
    (tfs_fill_super cap shift tb tb1 (Host.boot j hash fails)
        SuperBlock.blank).2.1.regularFiles = [(some 0, "test", tb)] := by
  by_cases h4 : fails 4 = true
  · rw [tfs_fill_super_no_slot cap shift tb tb1 j hash fails h0 h1 h2 h3 h4]
    refine ⟨rfl, rfl, ⟨fileInode j tb, ?_, rfl, rfl, rfl⟩, ?_, ?_⟩ <;>
      simp [Host.lookupInode, Host.lookup, Host.dentry, Host.inode, Host.regularFiles, entry,
        fileInode, rootInode, List.range_succ, List.find?]
  · have h4f : fails 4 = false := by simpa using h4
    have h5 : fails 5 = true := hsub.resolve_left h4
    rw [tfs_fill_super_no_inode cap shift tb tb1 j hash fails h0 h1 h2 h3 h4f h5]
    refine ⟨rfl, rfl, ⟨fileInode j tb, ?_, rfl, rfl, rfl⟩, ?_, ?_⟩ <;>
      simp [Host.lookupInode, Host.lookup, Host.dentry, Host.inode, Host.regularFiles, entry,
        fileInode, rootInode, List.range_succ, List.find?]

/-- Instance of C9: the sixth allocation request, the inode of "testdir", is
the one refused. -/
theorem tfs_fill_super_subdir_refused_witness :
    (tfs_fill_super 4096 12 1000 9000 (Host.boot 7 (fun _ n => n) fun k => decide (k = 5))
        SuperBlock.blank).1 = 0 ∧
    (tfs_fill_super 4096 12 1000 9000 (Host.boot 7 (fun _ n => n) fun k => decide (k = 5))
        SuperBlock.blank).2.2.s_root = some 0 ∧
    (∃ ino,
      (tfs_fill_super 4096 12 1000 9000 (Host.boot 7 (fun _ n => n) fun k => decide (k = 5))
          SuperBlock.blank).2.1.lookupInode 0 "test" = some ino ∧
      ino.i_mode = S_IFREG ||| 0o644 ∧ ino.i_private = 1000 ∧
      ino.i_fop = some FileOperations.tfs_file_ops) ∧
    (tfs_fill_super 4096 12 1000 9000 (Host.boot 7 (fun _ n => n) fun k => decide (k = 5))
        SuperBlock.blank).2.1.lookup 0 "testdir" = none ∧
    (tfs_fill_super 4096 12 1000 9000 (Host.boot 7 (fun _ n => n) fun k => decide (k = 5))
        SuperBlock.blank).2.1.regularFiles = [(some 0, "test", 1000)] :=
  tfs_fill_super_subdir_refused 4096 12 1000 9000 7 (fun _ n => n) (fun k => decide (k = 5))
    (by decide) (by decide) (by decide) (by decide) (Or.inr (by decide))

/-! ## The mount, write, read scenario -/

/-- Reading `bs.length + n` bytes from where `bs` was stored returns `bs`
followed by the `n` bytes that were already behind it. -/
theorem load_store_longer (bs : List Byte) (mem : Mem) (a n : Nat)
    (h : a + bs.length + n ≤ U64) :
    load (store mem a bs) a (bs.length + n)
      = bs ++ (List.range n).map fun i => mem (a + bs.length + i) := by
  rw [load_eq _ _ _ (by omega), List.range_add, List.map_append,
    load_store bs mem a (by omega), List.map_map]
  congr 1
  apply List.map_congr_left
  intro i _
  show store mem a bs (a + (bs.length + i)) = mem (a + bs.length + i)
  rw [store_outside bs mem a _ (by omega) (by omega), Nat.add_assoc]

/-- The scenario on a host that grants every allocation: the write of the ten
digits returns 10, and the read of 20 bytes returns 20 bytes, the digits
followed by the ten bytes the buffer held at positions 10 to 19. -/
theorem mount_write_read_digits (cap shift tb tb1 j : Nat) (hash : String → Nat → Nat)
    (mem : Mem) (hcap : cap < 2147483648) (h20 : 20 ≤ cap) (hbuf : tb + cap ≤ U64) :
    mount_write_read cap shift tb tb1 (Host.boot j hash fun _ => false) mem digits 10 20
      = some (10, { ret := 20, offset := 20,
                    user := digits ++ (List.range 10).map fun i => mem (tb + 10 + i) }) := by
  unfold mount_write_read
  rw [tfs_fill_super_granted cap shift tb tb1 j hash (fun _ => false) rfl rfl rfl rfl rfl rfl]
  have hl : Host.lookupInode
      { inodes := [some (rootInode j), some (fileInode j tb), some (dirInode j)],
        dentries := [some (entry hash none "/" 1 0), some (entry hash (some 0) "test" 4 1),
                     some (entry hash (some 0) "testdir" 7 2)],
        jiffies := j, full_name_hash := hash, fails := fun _ => false, requests := 6 }
      0 "test" = some (fileInode j tb) := by
    simp [Host.lookupInode, Host.lookup, Host.dentry, Host.inode, entry,
      List.range_succ, List.find?]
  have hw := tfs_write_file_inside cap mem { private_data := tb } digits 0 (by omega)
    (by simp [digits]; omega)
  have hr := tfs_read_file_inside cap (store mem tb digits) { private_data := tb } 20 20 0
    hcap (by omega)
  have hp : ptrAdd tb 0 = tb := ptrAdd_small tb 0 (by omega)
  have hm : min 20 (cap - 0) = 20 := by omega
  have hld : load (store mem tb digits) tb 20
      = digits ++ (List.range 10).map fun i => mem (tb + 10 + i) :=
    load_store_longer digits mem tb 10 (by simp [digits]; omega)
  simp only [hp, hm, show digits.length = 10 from rfl, Nat.cast_zero, Nat.cast_ofNat,
    le_refl, if_true, zero_add] at hw hr
  simp only [mountedSuper, hl]
  simp only [tfs_open, fileInode, hw, hr, hld]

/-- C5 as stated fails: on a freshly mounted tree with a zeroed buffer, after
the ten digits are written at offset 0 the read of 20 bytes returns 20 bytes,
the digits followed by ten zero bytes; it does not return 10 bytes. -/
theorem mount_write_read_not_ten :
    ∃ r, mount_write_read 4096 12 1000 9000 (Host.boot 7 (fun _ n => n) fun _ => false)
            (fun _ => 0) digits 10 20 = some (10, r) ∧
      r.ret = 20 ∧ r.user.length = 20 ∧ r.user = digits ++ List.replicate 10 0 ∧
      r.ret ≠ 10 ∧ r.user ≠ digits := by
  refine ⟨_, mount_write_read_digits 4096 12 1000 9000 7 (fun _ n => n) (fun _ => 0)
    (by decide) (by decide) (by decide), ?_⟩
  decide

/-- C5 amended: on a freshly mounted tree whose page holds at least 20 bytes,
after the ten digits are written at offset 0 of the root file "test" (the
write returns 10), a read of 20 bytes from offset 0 returns 20 bytes: the ten
digits followed by the ten bytes the buffer already held at positions 10 to
19, and the offset advances to 20. -/
theorem mount_write_read_whole_request (cap shift tb tb1 j : Nat) (hash : String → Nat → Nat)
    (mem : Mem) (hcap : cap < 2147483648) (h20 : 20 ≤ cap) (hbuf : tb + cap ≤ U64) :
    ∃ r, mount_write_read cap shift tb tb1 (Host.boot j hash fun _ => false) mem digits 10 20
            = some (10, r) ∧
      r.ret = 20 ∧ r.offset = 20 ∧
      r.user = digits ++ (List.range 10).map fun i => mem (tb + 10 + i) :=
  ⟨_, mount_write_read_digits cap shift tb tb1 j hash mem hcap h20 hbuf, rfl, rfl, rfl⟩

/-- Instance of C5 amended: a 4096-byte page at address `0xffffffffa0001000`
holding the sample memory. -/
theorem mount_write_read_whole_request_witness :
    ∃ r, mount_write_read 4096 12 0xffffffffa0001000 0xffffffffa0002000
            (Host.boot 0 (fun _ _ => 0) fun _ => false) sampleMem digits 10 20 = some (10, r) ∧
      r.ret = 20 ∧ r.offset = 20 ∧
      r.user = digits ++ (List.range 10).map fun i => sampleMem (0xffffffffa0001000 + 10 + i) :=
  mount_write_read_whole_request 4096 12 0xffffffffa0001000 0xffffffffa0002000 0
    (fun _ _ => 0) sampleMem (by decide) (by decide) (by decide)

end Tfs
